/-
Verification of the callback dispatch core of CounterStrikeSharp
(src/scripting/callback_manager.cpp).

A shallow embedding of the two components:
  * `ScriptCallback` — one named dispatch point ("Channel" in the spec):
    an ordered listener sequence `m_functions`, one call context
    `m_root_context`, and the member functions `AddListener`,
    `RemoveListener`, `IsContextSafe`, `Execute`, `Reset`.
  * `CallbackManager` — the registry of all channels: `CreateCallback`,
    `FindCallback`, `ReleaseCallback`, `TryAddFunction`,
    `TryRemoveFunction`.

Modelling decisions:
  * A listener reference (`CallbackT`, a raw function pointer in C++) is a
    `Nat` address; `0` is the null pointer.  The C++ corruption check
    `ptrValue < 0x1000 || (ptrValue >> 56) != 0` becomes `corrupted`.
  * A listener's behaviour is given by an environment `Env : Nat → Listener`
    mapping addresses to what the referenced code does when invoked: a list
    of API calls it performs on the same channel (re-entrant
    `AddListener` / `RemoveListener`, writes into the call context) and
    whether it finishes by raising a fault (a C++ exception).
  * Logging (`CSSHARP_CORE_TRACE/WARN/ERROR`) is made explicit: every
    operation also returns the list of log events it emits, in order.
  * The call context `fxNativeContext` is external to the given source; it
    is modelled from the spec (see its doc comment).  Whether accessing the
    context faults (the `catch (...)` in `IsContextSafe`) is an external
    condition of the environment, carried as the `ctxSafe` flag of the
    channel state; nothing in the modelled code changes it.
-/
import Mathlib

set_option autoImplicit false

namespace CounterStrikeSharp

/-- Severity levels of the logging sink (`CSSHARP_CORE_TRACE/WARN/ERROR`). -/
inductive LogLevel where
  | trace
  | warn
  | error
  deriving DecidableEq

/-- One emitted log line; constructors correspond one-to-one to the log
statements in `callback_manager.cpp`, carrying the format arguments that
matter (channel name, index, pointer value). -/
inductive LogEvent where
  /-- Log line: attempted to add null function pointer to a callback. -/
  | errorNullAdd (cb : String)
  /-- Log line: attempted to add corrupted function pointer to a callback. -/
  | errorCorruptAdd (p : Nat) (cb : String)
  /-- Log line: added function pointer to a callback. -/
  | traceAdded (p : Nat) (cb : String)
  /-- Log line: attempted to remove null function pointer from a callback. -/
  | warnNullRemove (cb : String)
  /-- Log line: removed function pointer from a callback. -/
  | traceRemoved (p : Nat) (cb : String)
  /-- Log line: context is invalid, exception during access. -/
  | warnContextInvalid
  /-- Log line: Execute aborted due to invalid context. -/
  | warnExecuteAborted (cb : String)
  /-- Log line: null function pointer at an index of the snapshot. -/
  | errorNullInExecute (cb : String) (idx : Nat)
  /-- Log line: corrupted function pointer detected at an index of the snapshot. -/
  | errorCorruptInExecute (cb : String) (idx : Nat) (p : Nat)
  /-- Log line: exception thrown inside a callback at an index of the snapshot. -/
  | errorListenerFault (cb : String) (idx : Nat)
  /-- Log line: creating a callback. -/
  | traceCreating (cb : String)
  /-- Log line: attempted to release null callback pointer. -/
  | warnReleaseNull
  /-- Log line: releasing a callback. -/
  | traceReleasing
  /-- Log line: successfully released a callback. -/
  | traceReleaseOk
  /-- Log line: callback not found in managed list during release. -/
  | warnReleaseNotFound
  deriving DecidableEq

/-- The level each log line is emitted at in the source. -/
def LogEvent.level : LogEvent → LogLevel
  | .errorNullAdd _ => .error
  | .errorCorruptAdd _ _ => .error
  | .traceAdded _ _ => .trace
  | .warnNullRemove _ => .warn
  | .traceRemoved _ _ => .trace
  | .warnContextInvalid => .warn
  | .warnExecuteAborted _ => .warn
  | .errorNullInExecute _ _ => .error
  | .errorCorruptInExecute _ _ _ => .error
  | .errorListenerFault _ _ => .error
  | .traceCreating _ => .trace
  | .warnReleaseNull => .warn
  | .traceReleasing => .trace
  | .traceReleaseOk => .trace
  | .warnReleaseNotFound => .warn

/-- Modelled from the spec: the shared call context `fxNativeContext`
(defined outside the given source).  Per spec section 6 it is an opaque
mutable value object supporting at least a result/argument payload
(`data`, abstracted to one `Nat`), `ThrowNativeError(message)` (recorded
in `nativeError`), and `Reset()` to the zero/default state.  Its
zero-initialised state `fxNativeContext{}` is the default value. -/
structure fxNativeContext where
  data : Nat := 0
  nativeError : Option String := none
  deriving DecidableEq

/-- `ScriptContext().ThrowNativeError(msg)` — modelled from the spec: records
the error message in the call context for the native side. -/
def ThrowNativeError (c : fxNativeContext) (msg : String) : fxNativeContext :=
  { c with nativeError := some msg }

/-- `ScriptContext().Reset()` — modelled from the spec: restores the call
context to its zero/default state. -/
def resetContext (_c : fxNativeContext) : fxNativeContext := {}

/-- The corruption check of `AddListener` and `Execute`:
`ptrValue < 0x1000 || (ptrValue >> 56) != 0`. -/
def corrupted (p : Nat) : Bool :=
  decide (p < 0x1000) || decide (p >>> 56 ≠ 0)

/-- A reference that passes both checks of the dispatch loop: non-null and
not corrupted.  (`corrupted 0 = true`, so `validRef p` implies `p ≠ 0`.) -/
def validRef (p : Nat) : Bool := !corrupted p

/-- The state of one `ScriptCallback` object ("Channel"): its name, the
ordered listener sequence `m_functions`, the owned call context
`m_root_context`, and the external condition `ctxSafe` saying whether
accessing the context currently faults (see file header). -/
structure ScriptCallback where
  m_name : String
  m_functions : List Nat
  m_root_context : fxNativeContext
  ctxSafe : Bool
  deriving DecidableEq

/-- `ScriptCallback::ScriptCallback(szName)`: empty listener sequence and a
zero-initialised context `fxNativeContext{}`; a freshly built context is
accessible, so `ctxSafe` is true. -/
def mkScriptCallback (szName : String) : ScriptCallback :=
  { m_name := szName, m_functions := [], m_root_context := {}, ctxSafe := true }

/-- `ScriptCallback::AddListener`: reject null (error log, no change),
reject a corrupted address (error log, no change), otherwise push the
reference to the back of `m_functions` (trace log). -/
def ScriptCallback.AddListener (self : ScriptCallback) (p : Nat) :
    ScriptCallback × List LogEvent :=
  if p = 0 then
    (self, [.errorNullAdd self.m_name])
  else if corrupted p then
    (self, [.errorCorruptAdd p self.m_name])
  else
    ({ self with m_functions := self.m_functions ++ [p] },
     [.traceAdded p self.m_name])

/-- `ScriptCallback::RemoveListener`: reject null (warn log, returns false);
otherwise erase every occurrence equal to `p` (the C++ erase–remove with
`std::ranges::remove` keeps the relative order of the rest, i.e. a filter)
and return whether the size changed. -/
def ScriptCallback.RemoveListener (self : ScriptCallback) (p : Nat) :
    ScriptCallback × Bool × List LogEvent :=
  if p = 0 then
    (self, false, [.warnNullRemove self.m_name])
  else
    let fns := self.m_functions.filter (fun q => q ≠ p)
    let removed := fns.length != self.m_functions.length
    ({ self with m_functions := fns }, removed,
     if removed then [.traceRemoved p self.m_name] else [])

/-- `ScriptCallback::IsContextSafe`: a trivial read of the context's result
slot inside try/catch; in the model the outcome is the external `ctxSafe`
condition, with the warn log on the catch path. -/
def ScriptCallback.IsContextSafe (self : ScriptCallback) :
    Bool × List LogEvent :=
  if self.ctxSafe then (true, []) else (false, [.warnContextInvalid])

/-- `ScriptCallback::Reset`: `ScriptContext().Reset()`. -/
def ScriptCallback.Reset (self : ScriptCallback) : ScriptCallback :=
  { self with m_root_context := resetContext self.m_root_context }

/-- One API call a listener may perform, re-entrantly, on the channel that
is invoking it: add or remove a listener reference, or write into the
shared call context. -/
inductive LCall where
  | add (p : Nat)
  | remove (p : Nat)
  | setData (n : Nat)
  deriving DecidableEq

/-- The behaviour of the code behind one listener reference: the API calls
it performs during its invocation, in order, and whether it then raises a
fault (a C++ exception escaping the listener). -/
structure Listener where
  calls : List LCall
  faults : Bool
  deriving DecidableEq

/-- The external environment: what the code at each address does.  The
registry never interprets addresses; this is the model's stand-in for the
dynamically loaded code being called through the function pointer. -/
def Env : Type := Nat → Listener

/-- Effect of one re-entrant API call on the channel state (the listener
calls the channel's own `AddListener` / `RemoveListener`, or writes the
context payload). -/
def runCall (cb : ScriptCallback) : LCall → ScriptCallback × List LogEvent
  | .add p => cb.AddListener p
  | .remove p =>
      let r := cb.RemoveListener p
      (r.1, r.2.2)
  | .setData n =>
      ({ cb with m_root_context := { cb.m_root_context with data := n } }, [])

/-- Run a listener's API calls in order, accumulating log events. -/
def runCalls (cb : ScriptCallback) : List LCall → ScriptCallback × List LogEvent
  | [] => (cb, [])
  | c :: cs =>
      let r := runCall cb c
      let rest := runCalls r.1 cs
      (rest.1, r.2 ++ rest.2)

/-- `fnMethodToCall(&ScriptContextStruct())` wrapped in try/catch: the
listener's calls take effect; if it faults, the catch handler signals
`ThrowNativeError("Exception in callback execution")` on the context and
logs the error for index `i`. -/
def invokeListener (env : Env) (cb : ScriptCallback) (p : Nat) (i : Nat) :
    ScriptCallback × List LogEvent :=
  let L := env p
  let r := runCalls cb L.calls
  if L.faults then
    ({ r.1 with
        m_root_context := ThrowNativeError r.1.m_root_context
          "Exception in callback execution" },
     r.2 ++ [.errorListenerFault cb.m_name i])
  else
    (r.1, r.2)

/-- Result of one `Execute` pass: the channel state afterwards, the list of
addresses actually invoked (in order), and the emitted log events. -/
structure ExecResult where
  cb : ScriptCallback
  invoked : List Nat
  log : List LogEvent
  deriving DecidableEq

/-- The dispatch loop of `Execute` over the snapshot `functionsCopy`,
starting at index `i`: a null entry is skipped with an error log, a
corrupted entry is skipped with an error log, any other entry is invoked. -/
def execLoop (env : Env) : List Nat → Nat → ScriptCallback → ExecResult
  | [], _, cb => ⟨cb, [], []⟩
  | p :: ps, i, cb =>
      if p = 0 then
        let r := execLoop env ps (i + 1) cb
        ⟨r.cb, r.invoked, .errorNullInExecute cb.m_name i :: r.log⟩
      else if corrupted p then
        let r := execLoop env ps (i + 1) cb
        ⟨r.cb, r.invoked, .errorCorruptInExecute cb.m_name i p :: r.log⟩
      else
        let s := invokeListener env cb p i
        let r := execLoop env ps (i + 1) s.1
        ⟨r.cb, p :: r.invoked, s.2 ++ r.log⟩

/-- `ScriptCallback::Execute(bResetContext)`: probe `IsContextSafe`; if
unsafe, `ThrowNativeError` on the context, log the abort, and return with
no listener invoked.  Otherwise copy `m_functions` into a snapshot,
dispatch over the snapshot, and finally `Reset` when `bResetContext`. -/
def ScriptCallback.Execute (env : Env) (self : ScriptCallback)
    (bResetContext : Bool) : ExecResult :=
  let probe := self.IsContextSafe
  if probe.1 then
    let functionsCopy := self.m_functions
    let r := execLoop env functionsCopy 0 self
    ⟨if bResetContext then r.cb.Reset else r.cb, r.invoked, probe.2 ++ r.log⟩
  else
    ⟨{ self with
        m_root_context := ThrowNativeError self.m_root_context
          "ScriptCallback::Execute aborted due to invalid context" },
     [],
     probe.2 ++ [.warnExecuteAborted self.m_name]⟩

/-- One entry of the registry's `m_managed` vector: the identity of the
heap object (`new ScriptCallback` returns a fresh address, modelled by a
`Nat` id drawn from a monotone counter; `0` is the null pointer) together
with the object's state. -/
structure ManagedChannel where
  id : Nat
  ch : ScriptCallback
  deriving DecidableEq

/-- The registry state: the `m_managed` vector in creation order, the
allocator counter for fresh ids, and the list of ids passed to `delete`
(so that "destroys the Channel" is observable). -/
structure CallbackManager where
  m_managed : List ManagedChannel := []
  nextId : Nat := 1
  freed : List Nat := []
  deriving DecidableEq

/-- `CallbackManager::CreateCallback(szName)`: always allocates a fresh
`ScriptCallback` (a fresh id) and appends it to `m_managed`; returns its
reference. -/
def CallbackManager.CreateCallback (m : CallbackManager) (szName : String) :
    Nat × CallbackManager × List LogEvent :=
  (m.nextId,
   { m with
      m_managed := m.m_managed ++ [⟨m.nextId, mkScriptCallback szName⟩],
      nextId := m.nextId + 1 },
   [.traceCreating szName])

/-- `CallbackManager::FindCallback(szName)`: linear scan of `m_managed`,
returning the first entry whose name compares equal byte-wise
(`strcmp == 0`), else the null result. -/
def CallbackManager.FindCallback (m : CallbackManager) (szName : String) :
    Option Nat :=
  (m.m_managed.find? (fun mc => mc.ch.m_name == szName)).map (fun mc => mc.id)

/-- `CallbackManager::ReleaseCallback(pCallback)`: null is a warned no-op;
otherwise every matching entry is removed from `m_managed`
(erase–`remove_if`) and the object is deleted; when no entry matched, a
warning is logged but the object is deleted anyway.  (The C++ trace lines
also print the channel's name through the passed pointer; the name is
omitted from the modelled events as nothing depends on it.) -/
def CallbackManager.ReleaseCallback (m : CallbackManager) (p : Nat) :
    CallbackManager × List LogEvent :=
  if p = 0 then
    (m, [.warnReleaseNull])
  else if m.m_managed.any (fun mc => mc.id == p) then
    ({ m with
        m_managed := m.m_managed.filter (fun mc => mc.id != p),
        freed := m.freed ++ [p] },
     [.traceReleasing, .traceReleaseOk])
  else
    ({ m with freed := m.freed ++ [p] },
     [.traceReleasing, .warnReleaseNotFound])

/-- Replace the first entry of `l` whose channel is named `szName` by the
result of `f` on it; the C++ `TryAddFunction` / `TryRemoveFunction` mutate
the object returned by `FindCallback` in place, which is exactly the first
name match of the scan. -/
def updateFirst (l : List ManagedChannel) (szName : String)
    (f : ScriptCallback → ScriptCallback) : List ManagedChannel :=
  match l with
  | [] => []
  | mc :: rest =>
      if mc.ch.m_name == szName then ⟨mc.id, f mc.ch⟩ :: rest
      else mc :: updateFirst rest szName f

/-- `CallbackManager::TryAddFunction(szName, fnCallable)`: look the channel
up by name; when found, call its `AddListener` (whose own result, if any,
is ignored) and return true; when no channel has that name, return false. -/
def CallbackManager.TryAddFunction (m : CallbackManager) (szName : String)
    (p : Nat) : CallbackManager × Bool × List LogEvent :=
  match m.m_managed.find? (fun mc => mc.ch.m_name == szName) with
  | some mc0 =>
      ({ m with
          m_managed := updateFirst m.m_managed szName
            (fun c => (c.AddListener p).1) },
       true, (mc0.ch.AddListener p).2)
  | none => (m, false, [])

/-- `CallbackManager::TryRemoveFunction(szName, fnCallable)`: look the
channel up by name; when found, forward `RemoveListener`'s boolean result;
else false. -/
def CallbackManager.TryRemoveFunction (m : CallbackManager) (szName : String)
    (p : Nat) : CallbackManager × Bool × List LogEvent :=
  match m.m_managed.find? (fun mc => mc.ch.m_name == szName) with
  | some mc0 =>
      ({ m with
          m_managed := updateFirst m.m_managed szName
            (fun c => (c.RemoveListener p).1) },
       (mc0.ch.RemoveListener p).2.1, (mc0.ch.RemoveListener p).2.2)
  | none => (m, false, [])

/-- Fold `AddListener` over a list of references, as a test harness would
register listeners L1..LN in order. -/
def addAll (cb : ScriptCallback) (refs : List Nat) : ScriptCallback :=
  refs.foldl (fun c p => (c.AddListener p).1) cb

/-! ### Basic facts about the reference checks -/

lemma validRef_ne_zero {p : Nat} (h : validRef p = true) : p ≠ 0 := by
  rintro rfl
  simp [validRef, corrupted] at h

lemma corrupted_eq_false_of_valid {p : Nat} (h : validRef p = true) :
    corrupted p = false := by
  simpa [validRef] using h

lemma validRef_of_checks {p : Nat} (hc : corrupted p = false) :
    validRef p = true := by
  simp [validRef, hc]

/-! ### Field-preservation lemmas: which fields each operation can touch -/

@[simp] lemma AddListener_m_name (cb : ScriptCallback) (p : Nat) :
    ((cb.AddListener p).1).m_name = cb.m_name := by
  by_cases h0 : p = 0 <;> by_cases hc : corrupted p <;>
    simp [ScriptCallback.AddListener, h0, hc]

@[simp] lemma AddListener_ctxSafe (cb : ScriptCallback) (p : Nat) :
    ((cb.AddListener p).1).ctxSafe = cb.ctxSafe := by
  by_cases h0 : p = 0 <;> by_cases hc : corrupted p <;>
    simp [ScriptCallback.AddListener, h0, hc]

@[simp] lemma AddListener_context (cb : ScriptCallback) (p : Nat) :
    ((cb.AddListener p).1).m_root_context = cb.m_root_context := by
  by_cases h0 : p = 0 <;> by_cases hc : corrupted p <;>
    simp [ScriptCallback.AddListener, h0, hc]

@[simp] lemma RemoveListener_m_name (cb : ScriptCallback) (p : Nat) :
    ((cb.RemoveListener p).1).m_name = cb.m_name := by
  by_cases h0 : p = 0 <;> simp [ScriptCallback.RemoveListener, h0]

@[simp] lemma RemoveListener_ctxSafe (cb : ScriptCallback) (p : Nat) :
    ((cb.RemoveListener p).1).ctxSafe = cb.ctxSafe := by
  by_cases h0 : p = 0 <;> simp [ScriptCallback.RemoveListener, h0]

@[simp] lemma RemoveListener_context (cb : ScriptCallback) (p : Nat) :
    ((cb.RemoveListener p).1).m_root_context = cb.m_root_context := by
  by_cases h0 : p = 0 <;> simp [ScriptCallback.RemoveListener, h0]

lemma AddListener_valid {cb : ScriptCallback} {p : Nat}
    (h : ∀ q ∈ cb.m_functions, validRef q = true) :
    ∀ q ∈ ((cb.AddListener p).1).m_functions, validRef q = true := by
  intro q hq
  by_cases h0 : p = 0
  · exact h q (by simpa [ScriptCallback.AddListener, h0] using hq)
  · by_cases hc : corrupted p
    · exact h q (by simpa [ScriptCallback.AddListener, h0, hc] using hq)
    · simp [ScriptCallback.AddListener, h0, hc] at hq
      rcases hq with hq | rfl
      · exact h q hq
      · simp [validRef, hc]

lemma RemoveListener_valid {cb : ScriptCallback} {p : Nat}
    (h : ∀ q ∈ cb.m_functions, validRef q = true) :
    ∀ q ∈ ((cb.RemoveListener p).1).m_functions, validRef q = true := by
  intro q hq
  by_cases h0 : p = 0
  · exact h q (by simpa [ScriptCallback.RemoveListener, h0] using hq)
  · simp [ScriptCallback.RemoveListener, h0, List.mem_filter] at hq
    exact h q hq.1

@[simp] lemma runCall_m_name (cb : ScriptCallback) (c : LCall) :
    ((runCall cb c).1).m_name = cb.m_name := by
  cases c <;> simp [runCall]

@[simp] lemma runCall_ctxSafe (cb : ScriptCallback) (c : LCall) :
    ((runCall cb c).1).ctxSafe = cb.ctxSafe := by
  cases c <;> simp [runCall]

@[simp] lemma runCall_nativeError (cb : ScriptCallback) (c : LCall) :
    ((runCall cb c).1).m_root_context.nativeError =
      cb.m_root_context.nativeError := by
  cases c <;> simp [runCall]

lemma runCall_valid {cb : ScriptCallback} (c : LCall)
    (h : ∀ q ∈ cb.m_functions, validRef q = true) :
    ∀ q ∈ ((runCall cb c).1).m_functions, validRef q = true := by
  cases c with
  | add p => exact AddListener_valid h
  | remove p => exact RemoveListener_valid h
  | setData n => simpa [runCall] using h

@[simp] lemma runCalls_m_name (cb : ScriptCallback) (cs : List LCall) :
    ((runCalls cb cs).1).m_name = cb.m_name := by
  induction cs generalizing cb with
  | nil => rfl
  | cons c cs ih => simp [runCalls, ih]

@[simp] lemma runCalls_ctxSafe (cb : ScriptCallback) (cs : List LCall) :
    ((runCalls cb cs).1).ctxSafe = cb.ctxSafe := by
  induction cs generalizing cb with
  | nil => rfl
  | cons c cs ih => simp [runCalls, ih]

@[simp] lemma runCalls_nativeError (cb : ScriptCallback) (cs : List LCall) :
    ((runCalls cb cs).1).m_root_context.nativeError =
      cb.m_root_context.nativeError := by
  induction cs generalizing cb with
  | nil => rfl
  | cons c cs ih => simp [runCalls, ih]

lemma runCalls_valid {cb : ScriptCallback} (cs : List LCall)
    (h : ∀ q ∈ cb.m_functions, validRef q = true) :
    ∀ q ∈ ((runCalls cb cs).1).m_functions, validRef q = true := by
  induction cs generalizing cb with
  | nil => simpa [runCalls] using h
  | cons c cs ih => exact (by simpa [runCalls] using ih (runCall_valid c h))

@[simp] lemma invokeListener_m_name (env : Env) (cb : ScriptCallback)
    (p i : Nat) : ((invokeListener env cb p i).1).m_name = cb.m_name := by
  unfold invokeListener
  by_cases hf : (env p).faults <;> simp [hf]

@[simp] lemma invokeListener_ctxSafe (env : Env) (cb : ScriptCallback)
    (p i : Nat) : ((invokeListener env cb p i).1).ctxSafe = cb.ctxSafe := by
  unfold invokeListener
  by_cases hf : (env p).faults <;> simp [hf]

lemma invokeListener_valid {env : Env} {cb : ScriptCallback} (p i : Nat)
    (h : ∀ q ∈ cb.m_functions, validRef q = true) :
    ∀ q ∈ ((invokeListener env cb p i).1).m_functions, validRef q = true := by
  unfold invokeListener
  by_cases hf : (env p).faults <;> simp [hf] <;>
    exact runCalls_valid (env p).calls h

lemma invokeListener_nativeError_of_not_faults {env : Env}
    {cb : ScriptCallback} {p : Nat} (i : Nat) (hf : (env p).faults = false) :
    ((invokeListener env cb p i).1).m_root_context.nativeError =
      cb.m_root_context.nativeError := by
  simp [invokeListener, hf]

lemma invokeListener_nativeError_of_faults {env : Env} {cb : ScriptCallback}
    {p : Nat} (i : Nat) (hf : (env p).faults = true) :
    ((invokeListener env cb p i).1).m_root_context.nativeError =
      some "Exception in callback execution" := by
  simp [invokeListener, hf, ThrowNativeError]

@[simp] lemma Reset_m_name (cb : ScriptCallback) :
    cb.Reset.m_name = cb.m_name := rfl

@[simp] lemma Reset_m_functions (cb : ScriptCallback) :
    cb.Reset.m_functions = cb.m_functions := rfl

@[simp] lemma Reset_ctxSafe (cb : ScriptCallback) :
    cb.Reset.ctxSafe = cb.ctxSafe := rfl

@[simp] lemma Reset_context (cb : ScriptCallback) :
    cb.Reset.m_root_context = {} := rfl

/-! ### The dispatch loop over a snapshot -/

/-- When every snapshot entry passes the null and corruption checks, the
loop invokes exactly the snapshot, in order, regardless of what the
invoked listeners do. -/
lemma execLoop_invoked (env : Env) (l : List Nat) (i : Nat)
    (cb : ScriptCallback) (h : ∀ p ∈ l, validRef p = true) :
    (execLoop env l i cb).invoked = l := by
  induction l generalizing i cb with
  | nil => rfl
  | cons p ps ih =>
      have hp := h p (List.mem_cons_self ..)
      have hps : ∀ q ∈ ps, validRef q = true := fun q hq =>
        h q (List.mem_cons_of_mem _ hq)
      simp [execLoop, validRef_ne_zero hp, corrupted_eq_false_of_valid hp,
        ih _ _ hps]

@[simp] lemma execLoop_m_name (env : Env) (l : List Nat) (i : Nat)
    (cb : ScriptCallback) : ((execLoop env l i cb).cb).m_name = cb.m_name := by
  induction l generalizing i cb with
  | nil => rfl
  | cons p ps ih =>
      by_cases h0 : p = 0
      · simp [execLoop, h0, ih]
      · by_cases hc : corrupted p <;> simp [execLoop, h0, hc, ih]

@[simp] lemma execLoop_ctxSafe (env : Env) (l : List Nat) (i : Nat)
    (cb : ScriptCallback) : ((execLoop env l i cb).cb).ctxSafe = cb.ctxSafe := by
  induction l generalizing i cb with
  | nil => rfl
  | cons p ps ih =>
      by_cases h0 : p = 0
      · simp [execLoop, h0, ih]
      · by_cases hc : corrupted p <;> simp [execLoop, h0, hc, ih]

lemma execLoop_valid {env : Env} (l : List Nat) (i : Nat)
    {cb : ScriptCallback} (h : ∀ q ∈ cb.m_functions, validRef q = true) :
    ∀ q ∈ ((execLoop env l i cb).cb).m_functions, validRef q = true := by
  induction l generalizing i cb with
  | nil => simpa [execLoop] using h
  | cons p ps ih =>
      by_cases h0 : p = 0
      · have hrec := ih (i + 1) h
        simpa [execLoop, h0] using hrec
      · by_cases hc : corrupted p
        · have hrec := ih (i + 1) h
          simpa [execLoop, h0, hc] using hrec
        · have hv := @invokeListener_valid env cb p i h
          have hrec := ih (i + 1) hv
          simpa [execLoop, h0, hc] using hrec

/-- Nothing in the modelled code ever clears the context's native-error
slot during a dispatch pass: the loop either leaves it alone or sets it to
the catch handler's message. -/
lemma execLoop_nativeError_cases (env : Env) (l : List Nat) (i : Nat)
    (cb : ScriptCallback) :
    ((execLoop env l i cb).cb).m_root_context.nativeError =
        cb.m_root_context.nativeError ∨
      ((execLoop env l i cb).cb).m_root_context.nativeError =
        some "Exception in callback execution" := by
  induction l generalizing i cb with
  | nil => exact Or.inl rfl
  | cons p ps ih =>
      by_cases h0 : p = 0
      · simpa [execLoop, h0] using ih (i + 1) cb
      · by_cases hc : corrupted p
        · simpa [execLoop, h0, hc] using ih (i + 1) cb
        · rcases ih (i + 1) (invokeListener env cb p i).1 with h | h
          · by_cases hf : (env p).faults
            · refine Or.inr ?_
              rw [invokeListener_nativeError_of_faults i hf] at h
              simpa [execLoop, h0, hc] using h
            · have hf' : (env p).faults = false := by simpa using hf
              refine Or.inl ?_
              rw [invokeListener_nativeError_of_not_faults i hf'] at h
              simpa [execLoop, h0, hc] using h
          · exact Or.inr (by simpa [execLoop, h0, hc] using h)

/-- If every snapshot entry is valid and no invoked listener faults, the
native-error slot is untouched by the pass. -/
lemma execLoop_nativeError_of_no_faults (env : Env) (l : List Nat) (i : Nat)
    (cb : ScriptCallback) (h : ∀ p ∈ l, (env p).faults = false) :
    ((execLoop env l i cb).cb).m_root_context.nativeError =
      cb.m_root_context.nativeError := by
  induction l generalizing i cb with
  | nil => rfl
  | cons p ps ih =>
      have hp := h p (List.mem_cons_self ..)
      have hps : ∀ q ∈ ps, (env q).faults = false := fun q hq =>
        h q (List.mem_cons_of_mem _ hq)
      by_cases h0 : p = 0
      · simpa [execLoop, h0] using ih _ cb hps
      · by_cases hc : corrupted p
        · simpa [execLoop, h0, hc] using ih _ cb hps
        · simpa [execLoop, h0, hc,
            invokeListener_nativeError_of_not_faults i hp] using
            (ih _ (invokeListener env cb p i).1 hps).trans
              (invokeListener_nativeError_of_not_faults i hp)

/-- Every faulting listener that the loop actually invokes leaves the
catch handler's error log line, carrying its snapshot index. -/
lemma execLoop_fault_mem_log (env : Env) (l : List Nat) (i : Nat)
    (cb : ScriptCallback) (hval : ∀ p ∈ l, validRef p = true) :
    ∀ (j : Nat) (hj : j < l.length), (env (l.get ⟨j, hj⟩)).faults = true →
      LogEvent.errorListenerFault cb.m_name (i + j) ∈
        (execLoop env l i cb).log := by
  induction l generalizing i cb with
  | nil => intro j hj; exact absurd hj (by simp)
  | cons p ps ih =>
      intro j hj hf
      have hp := hval p (List.mem_cons_self ..)
      have hps : ∀ q ∈ ps, validRef q = true := fun q hq =>
        hval q (List.mem_cons_of_mem _ hq)
      have h0 := validRef_ne_zero hp
      have hc := corrupted_eq_false_of_valid hp
      cases j with
      | zero =>
          have hpf : (env p).faults = true := by simpa using hf
          simp [execLoop, h0, hc, invokeListener, hpf]
      | succ j =>
          have hj' : j < ps.length := by simpa using hj
          have hf' : (env (ps.get ⟨j, hj'⟩)).faults = true := by simpa using hf
          have hrec := ih (i + 1) (invokeListener env cb p i).1 hps j hj' hf'
          rw [invokeListener_m_name] at hrec
          have harith : i + 1 + j = i + (j + 1) := by omega
          rw [harith] at hrec
          simp [execLoop, h0, hc]
          exact Or.inr hrec

/-- If some snapshot entry is valid and its listener faults, the pass ends
with the catch handler's message signalled in the context's native-error
slot (no later listener clears it). -/
lemma execLoop_nativeError_of_fault (env : Env) (l : List Nat) (i : Nat)
    (cb : ScriptCallback) (hval : ∀ p ∈ l, validRef p = true)
    (hf : ∃ p ∈ l, (env p).faults = true) :
    ((execLoop env l i cb).cb).m_root_context.nativeError =
      some "Exception in callback execution" := by
  induction l generalizing i cb with
  | nil =>
      rcases hf with ⟨p, hp, -⟩
      simp at hp
  | cons p ps ih =>
      have hp := hval p (List.mem_cons_self ..)
      have hps : ∀ q ∈ ps, validRef q = true := fun q hq =>
        hval q (List.mem_cons_of_mem _ hq)
      have h0 := validRef_ne_zero hp
      have hc := corrupted_eq_false_of_valid hp
      by_cases htail : ∃ q ∈ ps, (env q).faults = true
      · have hrec := ih (i + 1) (invokeListener env cb p i).1 hps htail
        simpa [execLoop, h0, hc] using hrec
      · rcases hf with ⟨q, hq, hqf⟩
        rcases List.mem_cons.1 hq with rfl | hq'
        · have hnof : ∀ s ∈ ps, (env s).faults = false := by
            intro s hs
            by_contra hcon
            exact htail ⟨s, hs, by simpa using hcon⟩
          have hpres := execLoop_nativeError_of_no_faults env ps (i + 1)
            (invokeListener env cb q i).1 hnof
          rw [invokeListener_nativeError_of_faults i hqf] at hpres
          simpa [execLoop, h0, hc] using hpres
        · exact absurd ⟨q, hq', hqf⟩ htail

/-! ### Unfolding `Execute` by the outcome of the safety probe -/

lemma Execute_of_safe (env : Env) (cb : ScriptCallback) (r : Bool)
    (h : cb.ctxSafe = true) :
    cb.Execute env r =
      ⟨if r then ((execLoop env cb.m_functions 0 cb).cb).Reset
        else (execLoop env cb.m_functions 0 cb).cb,
       (execLoop env cb.m_functions 0 cb).invoked,
       (execLoop env cb.m_functions 0 cb).log⟩ := by
  simp [ScriptCallback.Execute, ScriptCallback.IsContextSafe, h]

lemma Execute_of_ctx_invalid (env : Env) (cb : ScriptCallback) (r : Bool)
    (h : cb.ctxSafe = false) :
    cb.Execute env r =
      ⟨{ cb with
          m_root_context := ThrowNativeError cb.m_root_context
            "ScriptCallback::Execute aborted due to invalid context" },
       [], [.warnContextInvalid, .warnExecuteAborted cb.m_name]⟩ := by
  simp [ScriptCallback.Execute, ScriptCallback.IsContextSafe, h]

@[simp] lemma Execute_ctxSafe (env : Env) (cb : ScriptCallback) (r : Bool) :
    ((cb.Execute env r).cb).ctxSafe = cb.ctxSafe := by
  cases hsafe : cb.ctxSafe
  · rw [Execute_of_ctx_invalid env cb r hsafe]
    exact hsafe
  · rw [Execute_of_safe env cb r hsafe]
    by_cases hr : r = true <;> simp [hr, hsafe]

@[simp] lemma Execute_m_name (env : Env) (cb : ScriptCallback) (r : Bool) :
    ((cb.Execute env r).cb).m_name = cb.m_name := by
  cases hsafe : cb.ctxSafe
  · rw [Execute_of_ctx_invalid env cb r hsafe]
  · rw [Execute_of_safe env cb r hsafe]
    by_cases hr : r = true <;> simp [hr]

lemma Execute_valid {env : Env} {cb : ScriptCallback} (r : Bool)
    (h : ∀ q ∈ cb.m_functions, validRef q = true) :
    ∀ q ∈ ((cb.Execute env r).cb).m_functions, validRef q = true := by
  cases hsafe : cb.ctxSafe
  · rw [Execute_of_ctx_invalid env cb r hsafe]
    simpa using h
  · rw [Execute_of_safe env cb r hsafe]
    have hloop := @execLoop_valid env cb.m_functions 0 cb h
    by_cases hr : r = true <;> simpa [hr] using hloop

/-! ### Registering a batch of listeners -/

lemma addAll_m_functions (cb : ScriptCallback) (refs : List Nat)
    (h : ∀ p ∈ refs, validRef p = true) :
    (addAll cb refs).m_functions = cb.m_functions ++ refs := by
  induction refs generalizing cb with
  | nil => simp [addAll]
  | cons p ps ih =>
      have hp := h p (List.mem_cons_self ..)
      have hps : ∀ q ∈ ps, validRef q = true := fun q hq =>
        h q (List.mem_cons_of_mem _ hq)
      have h0 := validRef_ne_zero hp
      have hc := corrupted_eq_false_of_valid hp
      have step : addAll cb (p :: ps) = addAll ((cb.AddListener p).1) ps := rfl
      rw [step, ih _ hps]
      simp [ScriptCallback.AddListener, h0, hc]

@[simp] lemma addAll_m_name (cb : ScriptCallback) (refs : List Nat) :
    (addAll cb refs).m_name = cb.m_name := by
  induction refs generalizing cb with
  | nil => rfl
  | cons p ps ih =>
      have step : addAll cb (p :: ps) = addAll ((cb.AddListener p).1) ps := rfl
      rw [step, ih]
      simp

@[simp] lemma addAll_ctxSafe (cb : ScriptCallback) (refs : List Nat) :
    (addAll cb refs).ctxSafe = cb.ctxSafe := by
  induction refs generalizing cb with
  | nil => rfl
  | cons p ps ih =>
      have step : addAll cb (p :: ps) = addAll ((cb.AddListener p).1) ps := rfl
      rw [step, ih]
      simp

@[simp] lemma addAll_context (cb : ScriptCallback) (refs : List Nat) :
    (addAll cb refs).m_root_context = cb.m_root_context := by
  induction refs generalizing cb with
  | nil => rfl
  | cons p ps ih =>
      have step : addAll cb (p :: ps) = addAll ((cb.AddListener p).1) ps := rfl
      rw [step, ih]
      simp

/-- A reference failing any of `AddListener`'s checks leaves the channel
untouched. -/
lemma AddListener_unchanged_of_invalid (cb : ScriptCallback) {p : Nat}
    (h : p = 0 ∨ p < 0x1000 ∨ p >>> 56 ≠ 0) : (cb.AddListener p).1 = cb := by
  rcases h with h0 | h
  · simp [ScriptCallback.AddListener, h0]
  · by_cases h0 : p = 0
    · simp [ScriptCallback.AddListener, h0]
    · have hc : corrupted p = true := by
        rcases h with h | h <;> simp [corrupted, h]
      simp [ScriptCallback.AddListener, h0, hc]

/-- A reference passing all of `AddListener`'s checks is appended. -/
lemma AddListener_append_of_valid (cb : ScriptCallback) {p : Nat}
    (h0 : p ≠ 0) (hlow : ¬p < 0x1000) (hhigh : p >>> 56 = 0) :
    cb.AddListener p =
      ({ cb with m_functions := cb.m_functions ++ [p] },
       [.traceAdded p cb.m_name]) := by
  have hc : corrupted p = false := by simp [corrupted, hlow, hhigh]
  simp [ScriptCallback.AddListener, h0, hc]

/-- If `f` fixes every channel, `updateFirst` is the identity. -/
lemma updateFirst_eq_self (l : List ManagedChannel) (szName : String)
    {f : ScriptCallback → ScriptCallback} (h : ∀ c, f c = c) :
    updateFirst l szName f = l := by
  induction l with
  | nil => rfl
  | cons mc rest ih =>
      by_cases hm : mc.ch.m_name == szName
      · simp [updateFirst, hm, h]
      · simp [updateFirst, hm, ih]

/-! ### Concrete scenarios used by the witnesses -/

/-- A concrete environment exercising re-entrant mutation: the listener at
`0x2000` re-entrantly removes the not-yet-run listener `0x3000` and
registers the new listener `0x4000`; every other listener does nothing. -/
def envReentrant : Env := fun p =>
  if p = 0x2000 then ⟨[.remove 0x3000, .add 0x4000], false⟩ else ⟨[], false⟩

/-- A channel with the two listeners `0x2000` and `0x3000` registered. -/
def chReentrant : ScriptCallback :=
  addAll (mkScriptCallback "round_start") [0x2000, 0x3000]

/-- A concrete environment where only the listener at `0x3000` faults. -/
def envFaulty : Env := fun p =>
  if p = 0x3000 then ⟨[], true⟩ else ⟨[], false⟩

/-- A channel with three listeners, the middle one being the faulting
`0x3000`. -/
def chFaulty : ScriptCallback :=
  addAll (mkScriptCallback "ev") [0x2000, 0x3000, 0x5000]

/-- An environment whose listeners all do nothing, for the ordering
scenario. -/
def envOrder : Env := fun _ => ⟨[], false⟩

/-- An environment whose listeners all do nothing, for the unsafe-context
scenario. -/
def envAbort : Env := fun _ => ⟨[], false⟩

/-- An environment whose listeners all do nothing, for the reset
scenario. -/
def envIdle : Env := fun _ => ⟨[], false⟩

/-- A channel whose context holds a stale payload and a pending native
error, for the reset scenario. -/
def chDirty : ScriptCallback := ⟨"w", [], ⟨5, some "boom"⟩, true⟩

/-- A registry holding one channel named "evt", for the
`TryAddFunction` scenario. -/
def mgrEvt : CallbackManager :=
  (CallbackManager.CreateCallback {} "evt").2.1

/-! ## The claims -/

/-- C1: on a channel whose context is accessible and whose listener
sequence holds only references passing the pointer checks (every sequence
built through `AddListener` is of this shape), `Execute` invokes exactly
the sequence as it stood when the pass started — whatever listeners the
invoked code re-entrantly adds or removes on the same channel — and the
next `Execute` pass invokes exactly the mutated live sequence; so a
listener added during a pass first runs in the following pass, and a
removed not-yet-run listener still runs in the current pass. -/
theorem execute_snapshot_semantics (env : Env) (cb : ScriptCallback)
    (r1 r2 : Bool) (hsafe : cb.ctxSafe = true)
    (hval : ∀ p ∈ cb.m_functions, validRef p = true) :
    (cb.Execute env r1).invoked = cb.m_functions ∧
    (((cb.Execute env r1).cb).Execute env r2).invoked =
      ((cb.Execute env r1).cb).m_functions := by
  have h1 : (cb.Execute env r1).invoked = cb.m_functions := by
    rw [Execute_of_safe env cb r1 hsafe]
    exact execLoop_invoked env cb.m_functions 0 cb hval
  refine ⟨h1, ?_⟩
  have hsafe2 : ((cb.Execute env r1).cb).ctxSafe = true := by
    rw [Execute_ctxSafe]
    exact hsafe
  have hval2 := @Execute_valid env cb r1 hval
  rw [Execute_of_safe env _ r2 hsafe2]
  exact execLoop_invoked env _ 0 _ hval2

/-- Witness for C1: on `chReentrant` (listeners `[0x2000, 0x3000]`, where
`0x2000` removes `0x3000` and adds `0x4000` during dispatch), the first
pass still invokes `[0x2000, 0x3000]` — the removed listener runs, the
added one does not — and the second pass invokes `[0x2000, 0x4000]`. -/
theorem execute_snapshot_semantics_witness :
    chReentrant.ctxSafe = true ∧
    (∀ p ∈ chReentrant.m_functions, validRef p = true) ∧
    (chReentrant.Execute envReentrant false).invoked = [0x2000, 0x3000] ∧
    (((chReentrant.Execute envReentrant false).cb).Execute envReentrant
        false).invoked = [0x2000, 0x4000] :=
  ⟨by decide, by decide,
   ((execute_snapshot_semantics envReentrant chReentrant false false
      (by decide) (by decide)).1).trans (by decide),
   ((execute_snapshot_semantics envReentrant chReentrant false false
      (by decide) (by decide)).2).trans (by decide)⟩

/-- C2: under the same reachable-state hypotheses as C1, a fault in any
invoked listener is confined to that invocation: every snapshot entry is
still invoked (so the listeners before and after a faulting one run), each
fault leaves the catch handler's error log line carrying its index, and
(when no reset follows) the fault is signalled through the call context's
native-error slot; `Execute` itself returns normally, being a total
function of the model. -/
theorem execute_fault_isolation (env : Env) (cb : ScriptCallback) (r : Bool)
    (hsafe : cb.ctxSafe = true)
    (hval : ∀ p ∈ cb.m_functions, validRef p = true) :
    (cb.Execute env r).invoked = cb.m_functions ∧
    (∀ (j : Nat) (hj : j < cb.m_functions.length),
      (env (cb.m_functions.get ⟨j, hj⟩)).faults = true →
        LogEvent.errorListenerFault cb.m_name j ∈ (cb.Execute env r).log) ∧
    ((∃ p ∈ cb.m_functions, (env p).faults = true) → r = false →
      ((cb.Execute env r).cb).m_root_context.nativeError =
        some "Exception in callback execution") := by
  refine ⟨?_, ?_, ?_⟩
  · rw [Execute_of_safe env cb r hsafe]
    exact execLoop_invoked env cb.m_functions 0 cb hval
  · intro j hj hf
    rw [Execute_of_safe env cb r hsafe]
    have := execLoop_fault_mem_log env cb.m_functions 0 cb hval j hj hf
    simpa using this
  · intro hex hr
    subst hr
    rw [Execute_of_safe env cb false hsafe]
    simpa using execLoop_nativeError_of_fault env cb.m_functions 0 cb hval hex

/-- Witness for C2: on `chFaulty` (listeners `[0x2000, 0x3000, 0x5000]`
where listener #2 at `0x3000` faults), all three listeners are invoked,
the fault of index 1 is logged, and the native error is signalled. -/
theorem execute_fault_isolation_witness :
    chFaulty.ctxSafe = true ∧
    (∀ p ∈ chFaulty.m_functions, validRef p = true) ∧
    (chFaulty.Execute envFaulty false).invoked = [0x2000, 0x3000, 0x5000] ∧
    LogEvent.errorListenerFault "ev" 1 ∈ (chFaulty.Execute envFaulty false).log ∧
    ((chFaulty.Execute envFaulty false).cb).m_root_context.nativeError =
      some "Exception in callback execution" := by
  refine ⟨by decide, by decide, ?_, ?_, ?_⟩
  · exact ((execute_fault_isolation envFaulty chFaulty false (by decide)
      (by decide)).1).trans (by decide)
  · have h := (execute_fault_isolation envFaulty chFaulty false (by decide)
      (by decide)).2.1 1 (by decide) (by decide)
    simpa [chFaulty] using h
  · exact (execute_fault_isolation envFaulty chFaulty false (by decide)
      (by decide)).2.2 ⟨0x3000, by decide, by decide⟩ rfl

/-- C3: registering the references L1..LN in order on a freshly
constructed channel yields exactly that listener sequence, and `Execute`
invokes exactly that sequence in order; a reference registered twice
occurs twice and is hence invoked twice per pass. -/
theorem execute_order_and_duplicates (env : Env) (szName : String)
    (refs : List Nat) (r : Bool)
    (hval : ∀ p ∈ refs, validRef p = true) :
    (addAll (mkScriptCallback szName) refs).m_functions = refs ∧
    ((addAll (mkScriptCallback szName) refs).Execute env r).invoked = refs ∧
    (∀ p, (((addAll (mkScriptCallback szName) refs).Execute env
        r).invoked).count p = refs.count p) := by
  have hfun : (addAll (mkScriptCallback szName) refs).m_functions = refs := by
    simpa [mkScriptCallback] using
      addAll_m_functions (mkScriptCallback szName) refs hval
  have hsafe : (addAll (mkScriptCallback szName) refs).ctxSafe = true := by
    simp [mkScriptCallback]
  have hval2 : ∀ p ∈ (addAll (mkScriptCallback szName) refs).m_functions,
      validRef p = true := by
    rw [hfun]
    exact hval
  have hinv : ((addAll (mkScriptCallback szName) refs).Execute env
      r).invoked = refs := by
    rw [Execute_of_safe env _ r hsafe]
    exact (execLoop_invoked env _ 0 _ hval2).trans hfun
  exact ⟨hfun, hinv, fun p => by rw [hinv]⟩

/-- Witness for C3: registering `[0x2000, 0x3000, 0x2000]` (the first
reference twice) on a fresh channel; `Execute` invokes exactly that
sequence and invokes `0x2000` twice. -/
theorem execute_order_and_duplicates_witness :
    (∀ p ∈ [0x2000, 0x3000, 0x2000], validRef p = true) ∧
    ((addAll (mkScriptCallback "dup")
      [0x2000, 0x3000, 0x2000]).Execute envOrder false).invoked =
      [0x2000, 0x3000, 0x2000] ∧
    (((addAll (mkScriptCallback "dup")
      [0x2000, 0x3000, 0x2000]).Execute envOrder false).invoked).count
        0x2000 = 2 := by
  refine ⟨by decide, ?_, ?_⟩
  · exact (execute_order_and_duplicates envOrder "dup"
      [0x2000, 0x3000, 0x2000] false (by decide)).2.1
  · exact ((execute_order_and_duplicates envOrder "dup"
      [0x2000, 0x3000, 0x2000] false (by decide)).2.2 0x2000).trans (by decide)

/-- C4: `AddListener` rejects a null reference, a reference below the
`0x1000` floor, and a reference with any of bits 56–63 set: it emits one
error-level log line and leaves the channel (in particular the listener
sequence) unchanged — the C++ function returns `void`, so the failure is
observable exactly as this log-and-no-op outcome.  Any other reference is
appended at the end of the sequence, with a trace log. -/
theorem addListener_validation (cb : ScriptCallback) (p : Nat) :
    ((p = 0 ∨ p < 0x1000 ∨ p >>> 56 ≠ 0) →
      (cb.AddListener p).1 = cb ∧
      ∃ e, (cb.AddListener p).2 = [e] ∧ e.level = LogLevel.error) ∧
    (p ≠ 0 → ¬p < 0x1000 → p >>> 56 = 0 →
      cb.AddListener p =
        ({ cb with m_functions := cb.m_functions ++ [p] },
         [.traceAdded p cb.m_name])) := by
  constructor
  · intro h
    refine ⟨AddListener_unchanged_of_invalid cb h, ?_⟩
    by_cases h0 : p = 0
    · exact ⟨.errorNullAdd cb.m_name, by simp [ScriptCallback.AddListener, h0], rfl⟩
    · have hc : corrupted p = true := by
        rcases h with h | h | h
        · exact absurd h h0
        · simp [corrupted, h]
        · simp [corrupted, h]
      exact ⟨.errorCorruptAdd p cb.m_name,
        by simp [ScriptCallback.AddListener, h0, hc], rfl⟩
  · intro h0 hlow hhigh
    exact AddListener_append_of_valid cb h0 hlow hhigh

/-- Witness for C4: on a fresh channel, adding `0` (null), `0xfff` (below
the floor) and `0x180000001400000` (high bits set) is rejected with the
sequence unchanged, while adding `0x2000` appends it. -/
theorem addListener_validation_witness :
    (((mkScriptCallback "w").AddListener 0).1 = mkScriptCallback "w" ∧
      ∃ e, ((mkScriptCallback "w").AddListener 0).2 = [e] ∧
        e.level = LogLevel.error) ∧
    (((mkScriptCallback "w").AddListener 0xfff).1 = mkScriptCallback "w") ∧
    (((mkScriptCallback "w").AddListener 0x180000001400000).1 =
      mkScriptCallback "w") ∧
    ((mkScriptCallback "w").AddListener 0x2000).1.m_functions = [0x2000] := by
  refine ⟨?_, ?_, ?_, ?_⟩
  · exact (addListener_validation (mkScriptCallback "w") 0).1 (Or.inl rfl)
  · exact ((addListener_validation (mkScriptCallback "w") 0xfff).1
      (Or.inr (Or.inl (by decide)))).1
  · exact ((addListener_validation (mkScriptCallback "w") 0x180000001400000).1
      (Or.inr (Or.inr (by decide)))).1
  · rw [(addListener_validation (mkScriptCallback "w") 0x2000).2
      (by decide) (by decide) (by decide)]
    decide

/-- C5: `RemoveListener` with null warns and returns false without
touching the sequence; with a non-null reference not in the sequence it
returns false without touching the sequence; with a present reference it
removes every occurrence (keeping the other entries, with multiplicity
and order) and returns true. -/
theorem removeListener_removes_all (cb : ScriptCallback) (p : Nat) :
    (p = 0 →
      cb.RemoveListener p = (cb, false, [.warnNullRemove cb.m_name])) ∧
    (p ≠ 0 → p ∉ cb.m_functions →
      (cb.RemoveListener p).1 = cb ∧ (cb.RemoveListener p).2.1 = false) ∧
    (p ≠ 0 → p ∈ cb.m_functions →
      p ∉ ((cb.RemoveListener p).1).m_functions ∧
      ((cb.RemoveListener p).1).m_functions =
        cb.m_functions.filter (fun q => q ≠ p) ∧
      (∀ q, q ≠ p → (((cb.RemoveListener p).1).m_functions).count q =
        (cb.m_functions).count q) ∧
      (cb.RemoveListener p).2.1 = true) := by
  refine ⟨?_, ?_, ?_⟩
  · intro h0
    simp [ScriptCallback.RemoveListener, h0]
  · intro h0 hmem
    have hfix : cb.m_functions.filter (fun q => q ≠ p) = cb.m_functions := by
      apply List.filter_eq_self.2
      intro a ha
      have hne : a ≠ p := fun h => hmem (h ▸ ha)
      simp [hne]
    have h1 : (cb.RemoveListener p).1 =
        { cb with m_functions := cb.m_functions.filter (fun q => q ≠ p) } := by
      simp [ScriptCallback.RemoveListener, h0]
    have h2 : (cb.RemoveListener p).2.1 =
        ((cb.m_functions.filter (fun q => q ≠ p)).length !=
          cb.m_functions.length) := by
      simp [ScriptCallback.RemoveListener, h0]
    constructor
    · rw [h1, hfix]
    · rw [h2, hfix]
      simp
  · intro h0 hmem
    refine ⟨?_, ?_, ?_, ?_⟩
    · simp [ScriptCallback.RemoveListener, h0, List.mem_filter]
    · simp [ScriptCallback.RemoveListener, h0]
    · intro q hq
      have := @List.count_filter Nat _ _ (fun x => x ≠ p) q cb.m_functions
        (by simpa using hq)
      simp [ScriptCallback.RemoveListener, h0]
      simpa using this
    · simp [ScriptCallback.RemoveListener, h0]
      exact hmem

/-- Witness for C5: removing `0x3000` from `[0x2000, 0x3000, 0x4000,
0x3000]` removes both occurrences and returns true; removing the absent
`0x5000` is a false no-op; removing `0` is a warned false no-op. -/
theorem removeListener_removes_all_witness :
    (let cb : ScriptCallback :=
      ⟨"w", [0x2000, 0x3000, 0x4000, 0x3000], {}, true⟩
     ((cb.RemoveListener 0x3000).1).m_functions =
        [0x2000, 0x4000] ∧
      (cb.RemoveListener 0x3000).2.1 = true ∧
      (cb.RemoveListener 0x5000).1 = cb ∧
      (cb.RemoveListener 0x5000).2.1 = false ∧
      cb.RemoveListener 0 = (cb, false, [.warnNullRemove "w"])) := by
  refine ⟨?_, ?_, ?_, ?_, ?_⟩
  · exact ((removeListener_removes_all
      ⟨"w", [0x2000, 0x3000, 0x4000, 0x3000], {}, true⟩ 0x3000).2.2
      (by decide) (by decide)).2.1.trans (by decide)
  · exact ((removeListener_removes_all
      ⟨"w", [0x2000, 0x3000, 0x4000, 0x3000], {}, true⟩ 0x3000).2.2
      (by decide) (by decide)).2.2.2
  · exact ((removeListener_removes_all
      ⟨"w", [0x2000, 0x3000, 0x4000, 0x3000], {}, true⟩ 0x5000).2.1
      (by decide) (by decide)).1
  · exact ((removeListener_removes_all
      ⟨"w", [0x2000, 0x3000, 0x4000, 0x3000], {}, true⟩ 0x5000).2.1
      (by decide) (by decide)).2
  · exact (removeListener_removes_all
      ⟨"w", [0x2000, 0x3000, 0x4000, 0x3000], {}, true⟩ 0).1 rfl

/-- C6: when the context-safety probe fails at the start of `Execute`, the
pass is aborted: no listener is invoked, the listener sequence is left
unchanged, the native-side error is signalled through the call context,
and the only output is the two warn-level log lines (the probe's and the
abort's). -/
theorem execute_unsafe_abort (env : Env) (cb : ScriptCallback) (r : Bool)
    (h : cb.ctxSafe = false) :
    (cb.Execute env r).invoked = [] ∧
    ((cb.Execute env r).cb).m_functions = cb.m_functions ∧
    ((cb.Execute env r).cb).m_root_context.nativeError =
      some "ScriptCallback::Execute aborted due to invalid context" ∧
    (cb.Execute env r).log =
      [.warnContextInvalid, .warnExecuteAborted cb.m_name] ∧
    (∀ e ∈ (cb.Execute env r).log, e.level = LogLevel.warn) := by
  rw [Execute_of_ctx_invalid env cb r h]
  refine ⟨rfl, rfl, rfl, rfl, ?_⟩
  intro e he
  rcases List.mem_cons.1 he with rfl | he2
  · rfl
  · rcases List.mem_cons.1 he2 with rfl | he3
    · rfl
    · exact absurd he3 (List.not_mem_nil e)

/-- Witness for C6: a channel with one (valid) listener but an
inaccessible context; `Execute` invokes nothing and leaves the sequence
in place. -/
theorem execute_unsafe_abort_witness :
    (let cb : ScriptCallback := ⟨"w", [0x2000], {}, false⟩
     (cb.Execute envAbort true).invoked = [] ∧
      ((cb.Execute envAbort true).cb).m_functions = [0x2000] ∧
      ((cb.Execute envAbort true).cb).m_root_context.nativeError =
        some "ScriptCallback::Execute aborted due to invalid context") := by
  refine ⟨?_, ?_, ?_⟩
  · exact (execute_unsafe_abort envAbort ⟨"w", [0x2000], {}, false⟩ true
      rfl).1
  · exact ((execute_unsafe_abort envAbort ⟨"w", [0x2000], {}, false⟩ true
      rfl).2.1).trans (by decide)
  · exact (execute_unsafe_abort envAbort ⟨"w", [0x2000], {}, false⟩ true
      rfl).2.2.1

/-- C7: on a registry with distinct live ids (every id below the allocator
counter, as allocation guarantees) holding no channel named `szName`,
creating two channels under that same name allocates two distinct new
channels (distinct from each other and from everything already managed);
`FindCallback` then returns the first-created one, and releasing the
first-created one makes `FindCallback` return the second. -/
theorem createCallback_find_first_release (m : CallbackManager)
    (szName : String) (hpos : 0 < m.nextId)
    (hwf : ∀ mc ∈ m.m_managed, mc.id < m.nextId)
    (hfresh : ∀ mc ∈ m.m_managed, mc.ch.m_name ≠ szName) :
    (m.CreateCallback szName).1 ≠
      (((m.CreateCallback szName).2.1).CreateCallback szName).1 ∧
    (∀ mc ∈ m.m_managed, mc.id ≠ (m.CreateCallback szName).1) ∧
    ((((m.CreateCallback szName).2.1).CreateCallback
        szName).2.1).FindCallback szName = some (m.CreateCallback szName).1 ∧
    (((((m.CreateCallback szName).2.1).CreateCallback
        szName).2.1).ReleaseCallback
          (m.CreateCallback szName).1).1.FindCallback szName =
      some (((m.CreateCallback szName).2.1).CreateCallback szName).1 := by
  have hnone : m.m_managed.find? (fun mc => mc.ch.m_name == szName) = none := by
    rw [List.find?_eq_none]
    intro mc hmc
    simp [hfresh mc hmc]
  have h0 : m.nextId ≠ 0 := by omega
  refine ⟨?_, ?_, ?_, ?_⟩
  · simp [CallbackManager.CreateCallback]
  · intro mc hmc
    have := hwf mc hmc
    simp only [CallbackManager.CreateCallback]
    omega
  · simp [CallbackManager.CreateCallback, CallbackManager.FindCallback,
      List.find?_append, hnone, mkScriptCallback]
  · have helem : (⟨m.nextId, mkScriptCallback szName⟩ : ManagedChannel) ∈
        (m.m_managed ++ [(⟨m.nextId, mkScriptCallback szName⟩ :
          ManagedChannel)]) ++
          [(⟨m.nextId + 1, mkScriptCallback szName⟩ : ManagedChannel)] := by
      simp
    have hany : ((m.m_managed ++
        [(⟨m.nextId, mkScriptCallback szName⟩ : ManagedChannel)]) ++
        [(⟨m.nextId + 1, mkScriptCallback szName⟩ : ManagedChannel)]).any
          (fun mc => mc.id == m.nextId) = true :=
      List.any_eq_true.2 ⟨_, helem, by simp⟩
    have hkeep : m.m_managed.filter (fun mc => mc.id != m.nextId) =
        m.m_managed := by
      apply List.filter_eq_self.2
      intro mc hmc
      have := hwf mc hmc
      simp
      omega
    simp [CallbackManager.CreateCallback, CallbackManager.ReleaseCallback,
      CallbackManager.FindCallback, h0, hany, List.filter_append, hkeep,
      List.find?_append, hnone, mkScriptCallback]

/-- Witness for C7: from the empty registry, two channels named "dup" get
the ids 1 and 2; lookup finds 1; after releasing 1, lookup finds 2. -/
theorem createCallback_find_first_release_witness :
    ((({} : CallbackManager).CreateCallback "dup").2.1.CreateCallback
        "dup").2.1.FindCallback "dup" = some 1 ∧
    (((({} : CallbackManager).CreateCallback "dup").2.1.CreateCallback
        "dup").2.1.ReleaseCallback 1).1.FindCallback "dup" = some 2 := by
  have h := createCallback_find_first_release ({} : CallbackManager) "dup"
    (by decide) (by simp) (by simp)
  exact ⟨h.2.2.1, h.2.2.2⟩

/-- C8: `ReleaseCallback` with null warns and changes nothing; with a
reference present in the managed set it removes every entry for that
reference from the set and destroys the object; with a non-null reference
not in the managed set it warns, leaves the set unchanged, and still
destroys the object. -/
theorem releaseCallback_cases (m : CallbackManager) (p : Nat) :
    (p = 0 → m.ReleaseCallback p = (m, [.warnReleaseNull])) ∧
    (p ≠ 0 → (∃ mc ∈ m.m_managed, mc.id = p) →
      ((m.ReleaseCallback p).1).m_managed =
        m.m_managed.filter (fun mc => mc.id != p) ∧
      (∀ mc ∈ ((m.ReleaseCallback p).1).m_managed, mc.id ≠ p) ∧
      ((m.ReleaseCallback p).1).freed = m.freed ++ [p]) ∧
    (p ≠ 0 → (∀ mc ∈ m.m_managed, mc.id ≠ p) →
      ((m.ReleaseCallback p).1).m_managed = m.m_managed ∧
      ((m.ReleaseCallback p).1).freed = m.freed ++ [p] ∧
      LogEvent.warnReleaseNotFound ∈ (m.ReleaseCallback p).2) := by
  refine ⟨?_, ?_, ?_⟩
  · intro h0
    simp [CallbackManager.ReleaseCallback, h0]
  · intro h0 hmem
    rcases hmem with ⟨mc, hmc, hid⟩
    have hany : m.m_managed.any (fun mc => mc.id == p) = true :=
      List.any_eq_true.2 ⟨mc, hmc, by simp [hid]⟩
    refine ⟨?_, ?_, ?_⟩
    · simp [CallbackManager.ReleaseCallback, h0, hany]
    · intro mc2 hmc2
      simp [CallbackManager.ReleaseCallback, h0, hany,
        List.mem_filter] at hmc2
      exact hmc2.2
    · simp [CallbackManager.ReleaseCallback, h0, hany]
  · intro h0 habs
    have hany : m.m_managed.any (fun mc => mc.id == p) = false := by
      rw [Bool.eq_false_iff]
      intro hcon
      rcases List.any_eq_true.1 hcon with ⟨mc, hmc, hid⟩
      exact habs mc hmc (by simpa using hid)
    refine ⟨?_, ?_, ?_⟩
    · simp [CallbackManager.ReleaseCallback, h0, hany]
    · simp [CallbackManager.ReleaseCallback, h0, hany]
    · simp [CallbackManager.ReleaseCallback, h0, hany]

/-- Witness for C8: on a registry managing only the id-1 channel "evt":
releasing 1 empties the set and frees 1; releasing the unknown 7 keeps
the set, frees 7, and warns; releasing 0 is a warned no-op. -/
theorem releaseCallback_cases_witness :
    ((mgrEvt.ReleaseCallback 1).1).m_managed = [] ∧
    ((mgrEvt.ReleaseCallback 1).1).freed = [1] ∧
    ((mgrEvt.ReleaseCallback 7).1).m_managed = mgrEvt.m_managed ∧
    ((mgrEvt.ReleaseCallback 7).1).freed = [7] ∧
    LogEvent.warnReleaseNotFound ∈ (mgrEvt.ReleaseCallback 7).2 ∧
    mgrEvt.ReleaseCallback 0 = (mgrEvt, [.warnReleaseNull]) := by
  have h1 := (releaseCallback_cases mgrEvt 1).2.1 (by decide)
    ⟨⟨1, mkScriptCallback "evt"⟩, by decide, rfl⟩
  have h7 := (releaseCallback_cases mgrEvt 7).2.2 (by decide) (by decide)
  exact ⟨h1.1.trans (by decide), h1.2.2.trans (by decide),
    h7.1, h7.2.1.trans (by decide), h7.2.2,
    (releaseCallback_cases mgrEvt 0).1 rfl⟩

/-- C9: `Reset` restores the channel's call context to the zero/default
state and is idempotent; after an `Execute(resetAfter = true)` pass that
was not aborted by the safety probe, the call context reads back as the
default/zero state. -/
theorem reset_idempotent_and_reset_after_execute (env : Env)
    (cb : ScriptCallback) (hsafe : cb.ctxSafe = true) :
    cb.Reset.Reset = cb.Reset ∧
    ((cb.Execute env true).cb).m_root_context =
      ({ data := 0, nativeError := none } : fxNativeContext) := by
  refine ⟨rfl, ?_⟩
  rw [Execute_of_safe env cb true hsafe]
  simp

/-- Witness for C9: a channel whose context holds payload 5 and a pending
error reads back as the zero context after `Reset` twice as after once,
and after `Execute(resetAfter = true)`. -/
theorem reset_idempotent_and_reset_after_execute_witness :
    chDirty.Reset.Reset = chDirty.Reset ∧
    ((chDirty.Execute envIdle true).cb).m_root_context =
      ({ data := 0, nativeError := none } : fxNativeContext) :=
  ⟨(reset_idempotent_and_reset_after_execute envIdle chDirty rfl).1,
   (reset_idempotent_and_reset_after_execute envIdle chDirty rfl).2⟩

/-- C10: `TryAddFunction`'s boolean result says only whether a channel
with the given name was found: it is `true` exactly when the lookup
succeeds, even when the supplied reference is null or fails the
plausibility check and therefore nothing was registered (the registry is
then returned unchanged). -/
theorem tryAddFunction_reports_found_only (m : CallbackManager)
    (szName : String) (p : Nat) :
    (m.TryAddFunction szName p).2.1 = (m.FindCallback szName).isSome ∧
    ((p = 0 ∨ p < 0x1000 ∨ p >>> 56 ≠ 0) →
      (m.TryAddFunction szName p).1 = m) := by
  constructor
  · cases hf : m.m_managed.find? (fun mc => mc.ch.m_name == szName) <;>
      simp [CallbackManager.TryAddFunction, CallbackManager.FindCallback, hf]
  · intro h
    cases hf : m.m_managed.find? (fun mc => mc.ch.m_name == szName) with
    | none => simp [CallbackManager.TryAddFunction, hf]
    | some mc0 =>
        have hfix : ∀ c : ScriptCallback, (c.AddListener p).1 = c := fun c =>
          AddListener_unchanged_of_invalid c h
        simp [CallbackManager.TryAddFunction, hf,
          updateFirst_eq_self m.m_managed szName hfix]

/-- Witness for C10: on the registry holding only "evt", adding the null
reference under the name "evt" returns true and registers nothing, while
adding a valid reference under the unknown name "none" returns false. -/
theorem tryAddFunction_reports_found_only_witness :
    (mgrEvt.TryAddFunction "evt" 0).2.1 = true ∧
    (mgrEvt.TryAddFunction "evt" 0).1 = mgrEvt ∧
    (mgrEvt.TryAddFunction "none" 0x2000).2.1 = false := by
  refine ⟨?_, ?_, ?_⟩
  · exact (tryAddFunction_reports_found_only mgrEvt "evt" 0).1.trans (by decide)
  · exact (tryAddFunction_reports_found_only mgrEvt "evt" 0).2 (Or.inl rfl)
  · exact (tryAddFunction_reports_found_only mgrEvt "none" 0x2000).1.trans
      (by decide)

end CounterStrikeSharp
